import Mathlib

/-!
Verification development for the camera-model repository (src/camera-model.py).

The Python source is shallowly embedded: numeric values are modelled as
elements of a linear ordered field (instantiated at the rationals where a
claim needs evaluation, at the reals where the rotation trigonometry is
involved); numpy float non-finite values (nan and the two infinities) are
modelled by the RVal wrapper; methods that can raise are modelled as
Except-valued functions; drawing methods are modelled by the list of draw
calls they issue.  Fields and operations of the source that no claim touches
(the pixel buffers, the locks, the render thread loop, the interactive HUD
loop) are omitted; every modelled operation follows the corresponding Python
method line by line.
-/

/-- RGB color triple (three channels, 0 to 255), as passed to the draw calls. -/
abbrev Color : Type := ℕ × ℕ × ℕ

/-- A 3 by 3 matrix with explicitly named entries, row major: entry aij is
row i, column j.  Used for the camera rotation matrix R and the intrinsic
matrix. -/
structure Mat3 (α : Type) where
  a00 : α
  a01 : α
  a02 : α
  a10 : α
  a11 : α
  a12 : α
  a20 : α
  a21 : α
  a22 : α
deriving DecidableEq

/-- Matrix product of two 3 by 3 matrices (np.dot on 3x3 arrays). -/
def Mat3.mul [Mul α] [Add α] (m n : Mat3 α) : Mat3 α :=
  ⟨m.a00 * n.a00 + m.a01 * n.a10 + m.a02 * n.a20,
   m.a00 * n.a01 + m.a01 * n.a11 + m.a02 * n.a21,
   m.a00 * n.a02 + m.a01 * n.a12 + m.a02 * n.a22,
   m.a10 * n.a00 + m.a11 * n.a10 + m.a12 * n.a20,
   m.a10 * n.a01 + m.a11 * n.a11 + m.a12 * n.a21,
   m.a10 * n.a02 + m.a11 * n.a12 + m.a12 * n.a22,
   m.a20 * n.a00 + m.a21 * n.a10 + m.a22 * n.a20,
   m.a20 * n.a01 + m.a21 * n.a11 + m.a22 * n.a21,
   m.a20 * n.a02 + m.a21 * n.a12 + m.a22 * n.a22⟩

/-- Matrix-vector product of a 3 by 3 matrix with a 3-vector (np.dot with a
column vector). -/
def Mat3.mulVec [Mul α] [Add α] (m : Mat3 α) (v : α × α × α) : α × α × α :=
  (m.a00 * v.1 + m.a01 * v.2.1 + m.a02 * v.2.2,
   m.a10 * v.1 + m.a11 * v.2.1 + m.a12 * v.2.2,
   m.a20 * v.1 + m.a21 * v.2.1 + m.a22 * v.2.2)

/-- A numpy float64 value: either an exact finite value, the quiet nan that
numpy produces (and that np.nan assignment writes), or one of the two
infinities. -/
inductive RVal (α : Type) where
  | nan : RVal α
  | inf : RVal α
  | ninf : RVal α
  | fin : α → RVal α
deriving DecidableEq

/-- Numpy float division num / den under np.errstate(divide=ignore,
invalid=ignore): division by zero yields a signed infinity (or nan for
0 / 0) instead of raising. -/
def npDiv [LinearOrderedField α] (num den : α) : RVal α :=
  if den = 0 then
    (if num = 0 then RVal.nan else if 0 < num then RVal.inf else RVal.ninf)
  else RVal.fin (num / den)

/-- Subtraction of a float value from a finite constant, c - v, as done by
the axis flip [width, height] - proj.  Nan propagates, infinities change
sign. -/
def RVal.rsub [LinearOrderedField α] (c : α) : RVal α → RVal α
  | RVal.nan => RVal.nan
  | RVal.inf => RVal.ninf
  | RVal.ninf => RVal.inf
  | RVal.fin q => RVal.fin (c - q)

/-- True exactly when the value is non-finite, that is when
np.isnan(v) or np.isinf(v) holds of the modelled float. -/
def RVal.isNanOrInf : RVal α → Bool
  | RVal.fin _ => false
  | _ => true

/-- The numpy cast astype(int) of a float64: finite values truncate toward
zero; nan and the infinities have no exact integer image and the cast
produces the platform sentinel -2^63 (INT64_MIN, the value the x86
conversion instruction yields; numpy emits only a warning, never an
exception). -/
def RVal.astypeInt [LinearOrderedField α] [FloorRing α] : RVal α → ℤ
  | RVal.fin q => if 0 ≤ q then ⌊q⌋ else ⌈q⌉
  | _ => -(2 ^ 63)

/-- Python round() on a finite value: round half to even (bankers rounding),
returning an integer. -/
def pyRound [LinearOrderedField α] [FloorRing α] (q : α) : ℤ :=
  let fl := ⌊q⌋
  let r := q - (fl : α)
  if r < 1 / 2 then fl
  else if 1 / 2 < r then fl + 1
  else if fl % 2 = 0 then fl else fl + 1

/-- Python round() applied to a numpy float64 scalar: finite values round
half to even; round(nan) raises ValueError and round(inf) raises
OverflowError, modelled as none. -/
def pyRoundRVal [LinearOrderedField α] [FloorRing α] : RVal α → Option ℤ
  | RVal.fin q => some (pyRound q)
  | _ => none

/-- The Camera state: position, Euler angles, rotation matrix R, canvas
size, focus f, scale s and the intrinsic matrix, mirroring the fields set
in Camera.__init__.  The pixel buffers, locks and thread state are omitted
(no modelled operation reads them). -/
structure Camera (α : Type) where
  x : α
  y : α
  z : α
  fps : ℕ
  roll : α
  pitch : α
  yaw : α
  R : Mat3 α
  canvasWidth : ℕ
  canvasHeight : ℕ
  f : α
  s : α
  intrinsic : Mat3 α

/-- Camera.__init__(width, height, fps=30): position zero, angles zero, R
the identity, focus 1, scale 800, intrinsic
[[f*s, 0, width/2], [0, f*s, height/2], [0, 0, 1]]. -/
def Camera.init [LinearOrderedField α] (width height : ℕ) : Camera α :=
  { x := 0
    y := 0
    z := 0
    fps := 30
    roll := 0
    pitch := 0
    yaw := 0
    R := ⟨1, 0, 0, 0, 1, 0, 0, 0, 1⟩
    canvasWidth := width
    canvasHeight := height
    f := 1
    s := 800
    intrinsic := ⟨1 * 800, 0, (width : α) / 2,
                  0, 1 * 800, (height : α) / 2,
                  0, 0, 1⟩ }

/-- Camera.trans_to_cam for one point: vc = np.dot(R, v - [x, y, z]). -/
def Camera.trans_to_cam [LinearOrderedField α] (cam : Camera α)
    (p : α × α × α) : α × α × α :=
  cam.R.mulVec (p.1 - cam.x, p.2.1 - cam.y, p.2.2 - cam.z)

/-- Camera.project for one camera-frame point (x, y, z), following the
method line by line: Z is the last coordinate of the point; the homogeneous
coordinates are intrinsic applied to (x, y, z); every homogeneous coordinate
is divided by Z under errstate ignore (the third quotient is computed by
the code and discarded by the final slice to columns 0:2); any row whose
third camera-frame coordinate is below 0.03 is overwritten with nan; the
first two columns are flipped to [width, height] minus themselves and
returned. -/
def Camera.project [LinearOrderedField α] (cam : Camera α)
    (x y z : α) : RVal α × RVal α :=
  let h0 := cam.intrinsic.a00 * x + cam.intrinsic.a01 * y + cam.intrinsic.a02 * z
  let h1 := cam.intrinsic.a10 * x + cam.intrinsic.a11 * y + cam.intrinsic.a12 * z
  let h2 := cam.intrinsic.a20 * x + cam.intrinsic.a21 * y + cam.intrinsic.a22 * z
  let d0 := npDiv h0 z
  let d1 := npDiv h1 z
  let _d2 := npDiv h2 z
  let p0 := if z < 3 / 100 then RVal.nan else d0
  let p1 := if z < 3 / 100 then RVal.nan else d1
  (RVal.rsub (cam.canvasWidth : α) p0, RVal.rsub (cam.canvasHeight : α) p1)

/-- Helper: any camera-frame point with third coordinate below 0.03
projects to the sentinel pair. -/
theorem project_eq_nan_of_depth_lt (cam : Camera ℚ) (x y z : ℚ)
    (h : z < 3 / 100) : cam.project x y z = (RVal.nan, RVal.nan) := by
  simp [Camera.project, if_pos h, RVal.rsub]

/-- C1: for any camera and any camera-frame point whose depth (the third
camera-frame coordinate, the one the code compares against 0.03) is below
0.03, Camera.project returns the not-a-number sentinel in both output
coordinates.  The embedding is a total function, so a zero or negative
depth cannot raise: it propagates as the sentinel. -/
theorem project_sentinel_below_near_plane (cam : Camera ℚ) (x y z : ℚ)
    (h : z < 3 / 100) : cam.project x y z = (RVal.nan, RVal.nan) :=
  project_eq_nan_of_depth_lt cam x y z h

/-- Witness for C1: the concrete camera Camera(800, 640) and the camera-frame
point (0, 0, 0) of depth 0 yield the sentinel pair. -/
theorem project_sentinel_below_near_plane_witness :
    ((0 : ℚ) < 3 / 100) ∧
      (Camera.init 800 640 : Camera ℚ).project 0 0 0 = (RVal.nan, RVal.nan) :=
  ⟨by norm_num, project_sentinel_below_near_plane _ 0 0 0 (by norm_num)⟩

/-- Modelled from the spec, following the words of claim C3 as written: the
homogeneous coordinates are intrinsic applied to [X, Y, Z] transposed, every
coordinate is divided by X, the first listed camera-frame coordinate, which
the claim names the forward/depth component, and both output axes are
flipped as canvasSize minus imageCoord.  This definition exists only to be
compared against Camera.project, which divides by the last coordinate. -/
def claimPixel (cam : Camera ℚ) (x y z : ℚ) : ℚ × ℚ :=
  let h0 := cam.intrinsic.a00 * x + cam.intrinsic.a01 * y + cam.intrinsic.a02 * z
  let h1 := cam.intrinsic.a10 * x + cam.intrinsic.a11 * y + cam.intrinsic.a12 * z
  ((cam.canvasWidth : ℚ) - h0 / x, (cam.canvasHeight : ℚ) - h1 / x)

/-- Closed form that the code actually implements for a point past the near
plane: homogeneous coordinates intrinsic applied to [X, Y, Z] transposed,
divided by the depth Z, the LAST camera-frame coordinate (the one the code
compares against 0.03), then both axes flipped as canvasSize minus
imageCoord. -/
def closedFormPixel (cam : Camera ℚ) (x y z : ℚ) : ℚ × ℚ :=
  let h0 := cam.intrinsic.a00 * x + cam.intrinsic.a01 * y + cam.intrinsic.a02 * z
  let h1 := cam.intrinsic.a10 * x + cam.intrinsic.a11 * y + cam.intrinsic.a12 * z
  ((cam.canvasWidth : ℚ) - h0 / z, (cam.canvasHeight : ℚ) - h1 / z)

/-- Counterexample to C3 as stated: for the camera Camera(800, 640) and the
camera-frame point (1, 0, 1/2), whose first coordinate 1 and whose last
coordinate 1/2 are both at least 0.03 (so the depth hypothesis holds under
either reading), the pixel returned by Camera.project differs from the pixel
of the claimed formula that divides by the first coordinate X. -/
theorem project_claim_formula_counterexample :
    ((3 / 100 : ℚ) ≤ 1) ∧ ((3 / 100 : ℚ) ≤ 1 / 2) ∧
      (Camera.init 800 640 : Camera ℚ).project 1 0 (1 / 2) ≠
        (RVal.fin (claimPixel (Camera.init 800 640) 1 0 (1 / 2)).1,
         RVal.fin (claimPixel (Camera.init 800 640) 1 0 (1 / 2)).2) := by
  refine ⟨by norm_num, by norm_num, ?_⟩
  norm_num [Camera.project, claimPixel, Camera.init, npDiv, RVal.rsub]

/-- C3 amended: for every camera-frame point (X, Y, Z) whose depth, the LAST
camera-frame coordinate Z (the coordinate the code compares against 0.03),
is at least 0.03, Camera.project returns exactly the closed-form pixel
obtained by applying the intrinsic matrix to [X, Y, Z] transposed, dividing
by the depth Z, and flipping both axes as canvasSize minus imageCoord. -/
theorem project_closed_form (cam : Camera ℚ) (x y z : ℚ)
    (h : 3 / 100 ≤ z) :
    cam.project x y z =
      (RVal.fin (closedFormPixel cam x y z).1,
       RVal.fin (closedFormPixel cam x y z).2) := by
  have hz : ¬ z < 3 / 100 := not_lt.mpr h
  have hz0 : z ≠ 0 := by
    intro h0
    rw [h0] at h
    norm_num at h
  simp [Camera.project, closedFormPixel, npDiv, hz, hz0, RVal.rsub]

/-- Witness for the amended C3: Camera(800, 640) and the camera-frame point
(0, 0, 10) of depth 10 project to the pixel (400, 320) predicted by the
closed form. -/
theorem project_closed_form_witness :
    ((3 / 100 : ℚ) ≤ 10) ∧
      (Camera.init 800 640 : Camera ℚ).project 0 0 10 =
        (RVal.fin (closedFormPixel (Camera.init 800 640) 0 0 10).1,
         RVal.fin (closedFormPixel (Camera.init 800 640) 0 0 10).2) :=
  ⟨by norm_num, project_closed_form _ 0 0 10 (by norm_num)⟩

/-- A 2D draw call issued against the hidden canvas: a circle of radius
ceil(thickness / 2) at an integer pixel (cv2.circle via draw_point_2d), or
an anti-aliased line between two integer pixels (cv2.line via
draw_line_2d). -/
inductive DrawCall where
  | point : ℤ → ℤ → Color → ℕ → DrawCall
  | line : ℤ × ℤ → ℤ × ℤ → Color → ℕ → DrawCall
deriving DecidableEq

/-- The state of a Point object: one 3D world coordinate, a color and a
thickness. -/
structure PointData where
  x : ℚ
  y : ℚ
  z : ℚ
  color : Color
  thickness : ℕ
deriving DecidableEq

/-- Point.refresh(camera): transform the single coordinate to the camera
frame, project it, then call
draw_point_2d(round(proj[0][0]), round(proj[0][1]), color, thickness).
Python round() on the nan sentinel (or an infinity) raises, modelled as
Except.error; otherwise the draw call is issued. -/
def Point.refresh (pt : PointData) (cam : Camera ℚ) : Except String DrawCall :=
  let vc := cam.trans_to_cam (pt.x, pt.y, pt.z)
  let pr := cam.project vc.1 vc.2.1 vc.2.2
  match pyRoundRVal pr.1, pyRoundRVal pr.2 with
  | some a, some b => Except.ok (DrawCall.point a b pt.color pt.thickness)
  | _, _ => Except.error "ValueError"

/-- The state of a Line object: two 3D world endpoints, a color, a
thickness.  The second endpoint is called stop because end is reserved. -/
structure LineData where
  start : ℚ × ℚ × ℚ
  stop : ℚ × ℚ × ℚ
  color : Color
  thickness : ℕ
deriving DecidableEq

/-- The projection of the start endpoint of a line through a camera, as
computed by the first two lines of Line.refresh. -/
def Line.startProj (ln : LineData) (cam : Camera ℚ) : RVal ℚ × RVal ℚ :=
  let sc := cam.trans_to_cam ln.start
  cam.project sc.1 sc.2.1 sc.2.2

/-- The projection of the end endpoint of a line through a camera, as
computed by the next two lines of Line.refresh. -/
def Line.stopProj (ln : LineData) (cam : Camera ℚ) : RVal ℚ × RVal ℚ :=
  let ec := cam.trans_to_cam ln.stop
  cam.project ec.1 ec.2.1 ec.2.2

/-- True when np.isnan(p).any() or np.isinf(p).any() holds of a projected
2D coordinate pair. -/
def pairInvalid (p : RVal α × RVal α) : Bool :=
  p.1.isNanOrInf || p.2.isNanOrInf

/-- Line.refresh(camera): project both endpoints; if either projected pair
contains a nan or an infinity, return without drawing; otherwise issue one
draw_line_2d call with both endpoint pairs cast to int. -/
def Line.refresh (ln : LineData) (cam : Camera ℚ) : List DrawCall :=
  let sp := Line.startProj ln cam
  let ep := Line.stopProj ln cam
  if pairInvalid sp || pairInvalid ep then []
  else
    [DrawCall.line (sp.1.astypeInt, sp.2.astypeInt)
      (ep.1.astypeInt, ep.2.astypeInt) ln.color ln.thickness]

/-- The state of a Box object.  Box.__init__(center, size, color) stores
center and size but never stores its color argument, so the color field
keeps the Object3D base default (0, 0, 0) set by the base constructor. -/
structure BoxData where
  center : ℚ × ℚ × ℚ
  size : ℚ × ℚ × ℚ
  color : Color
deriving DecidableEq

/-- Box construction: super().__init__() sets color to the base default
(0x00, 0x00, 0x00); the color argument of Box.__init__ is ignored. -/
def Box.new (center size : ℚ × ℚ × ℚ) (_color : Color) : BoxData :=
  { center := center, size := size, color := (0, 0, 0) }

/-- Box.refresh(camera) is pass: it issues no draw call and changes
nothing. -/
def Box.refresh (_b : BoxData) (_cam : Camera ℚ) : List DrawCall := []

/-- Camera.render(v, color, texture): cast the projected coordinates to
int, keep exactly the entries with 0 < y < height and 0 < x < width, and
write texture[i] (when a texture is supplied) or the single color at
canvas_hidden[y, x] for each kept entry.  A result entry (y, x, c) models
the assignment canvas_hidden[y][x] = c; the list order is the write
order. -/
def Camera.render (cam : Camera ℚ) (v : List (RVal ℚ × RVal ℚ))
    (color : Color) (texture : Option (List Color)) : List (ℤ × ℤ × Color) :=
  let sel := v.map (fun p => (p.1.astypeInt, p.2.astypeInt))
  match texture with
  | some t =>
      (sel.zip t).filterMap (fun pc =>
        if 0 < pc.1.2 ∧ pc.1.2 < (cam.canvasHeight : ℤ) ∧
            0 < pc.1.1 ∧ pc.1.1 < (cam.canvasWidth : ℤ) then
          some (pc.1.2, pc.1.1, pc.2)
        else none)
  | none =>
      sel.filterMap (fun xy =>
        if 0 < xy.2 ∧ xy.2 < (cam.canvasHeight : ℤ) ∧
            0 < xy.1 ∧ xy.1 < (cam.canvasWidth : ℤ) then
          some (xy.2, xy.1, color)
        else none)

/-- The state of a Vertices object: a batch of 3D world coordinates, one
color, and an optional per-vertex texture. -/
structure VerticesData where
  verts : List (ℚ × ℚ × ℚ)
  color : Color
  texture : Option (List Color)

/-- Vertices.refresh(camera): transform the whole batch to the camera
frame, project it in one call, and hand the projected batch to
Camera.render. -/
def Vertices.refresh (vs : VerticesData) (cam : Camera ℚ) :
    List (ℤ × ℤ × Color) :=
  cam.render (vs.verts.map (fun p =>
    let c := cam.trans_to_cam p
    cam.project c.1 c.2.1 c.2.2)) vs.color vs.texture

/-- A canvas write (y, x, c) is strictly inside the pixel buffer bounds:
positive row below height and positive column below width. -/
def inBoundsWrite (cam : Camera ℚ) (w : ℤ × ℤ × Color) : Bool :=
  decide (0 < w.1 ∧ w.1 < (cam.canvasHeight : ℤ) ∧
    0 < w.2.1 ∧ w.2.1 < (cam.canvasWidth : ℤ))

set_option maxHeartbeats 1000000 in
/-- C4: Point.refresh does NOT skip an invalid projection.  At the failing
input Camera(800, 640) with the world point (0, 0, 0), whose camera-frame
depth 0 is below 0.03, the projection is the nan sentinel and round(nan)
raises ValueError instead of silently skipping the draw (Line.refresh has
the isnan guard; Point.refresh lacks it). -/
theorem point_refresh_raises_on_invalid :
    Point.refresh ⟨0, 0, 0, (255, 255, 255), 1⟩ (Camera.init 800 640) =
      Except.error "ValueError" := by
  have h1 : (Camera.init 800 640 : Camera ℚ).trans_to_cam (0, 0, 0) = (0, 0, 0) := by
    norm_num [Camera.trans_to_cam, Mat3.mulVec, Camera.init]
  have h2 : (Camera.init 800 640 : Camera ℚ).project 0 0 0 = (RVal.nan, RVal.nan) :=
    project_eq_nan_of_depth_lt _ 0 0 0 (by norm_num)
  simp only [Point.refresh]
  rw [show ((⟨0, 0, 0, (255, 255, 255), 1⟩ : PointData).x,
           (⟨0, 0, 0, (255, 255, 255), 1⟩ : PointData).y,
           (⟨0, 0, 0, (255, 255, 255), 1⟩ : PointData).z) = ((0 : ℚ), (0 : ℚ), (0 : ℚ)) from rfl]
  rw [h1]
  simp [h2, pyRoundRVal]

/-- C5: if the projection of either endpoint of a line is invalid (contains
a nan or an infinite coordinate), Line.refresh issues no draw call at all:
the whole segment is skipped, never partially drawn. -/
theorem line_refresh_skips_invalid (cam : Camera ℚ) (ln : LineData)
    (h : pairInvalid (Line.startProj ln cam) = true ∨
         pairInvalid (Line.stopProj ln cam) = true) :
    Line.refresh ln cam = [] := by
  rcases h with h | h <;> simp [Line.refresh, h]

/-- Witness for C5, the near-plane case named by the claim: with
Camera(800, 640), the segment from world (0, 0, -1) (camera-frame depth -1,
behind the near plane) to world (0, 0, 1) (in front of it) has an invalid
start projection and produces no draw call. -/
theorem line_refresh_skips_invalid_witness :
    pairInvalid (Line.startProj ⟨(0, 0, -1), (0, 0, 1), (255, 255, 255), 1⟩
        (Camera.init 800 640)) = true ∧
      Line.refresh ⟨(0, 0, -1), (0, 0, 1), (255, 255, 255), 1⟩
        (Camera.init 800 640) = [] :=
  ⟨by norm_num [Line.startProj, Camera.trans_to_cam, Mat3.mulVec, Camera.init,
      Camera.project, npDiv, RVal.rsub, pairInvalid, RVal.isNanOrInf],
   line_refresh_skips_invalid _ _ (Or.inl (by
      norm_num [Line.startProj, Camera.trans_to_cam, Mat3.mulVec, Camera.init,
        Camera.project, npDiv, RVal.rsub, pairInvalid, RVal.isNanOrInf]))⟩

/-- C6: every write emitted by Camera.render, for any projected batch
(nan, infinite and out-of-range coordinates included), any color and any
optional texture, lands strictly inside the canvas bounds: the bounds
filter precedes every buffer assignment, so out-of-bounds and invalid
vertices are dropped and no write indexes outside the buffer; the model is
a total function, so no input raises. -/
theorem render_writes_in_bounds (cam : Camera ℚ) (v : List (RVal ℚ × RVal ℚ))
    (color : Color) (texture : Option (List Color)) :
    (cam.render v color texture).all (inBoundsWrite cam) = true := by
  rw [List.all_eq_true]
  intro w hw
  cases texture with
  | some t =>
      simp only [Camera.render, List.mem_filterMap] at hw
      obtain ⟨pc, hpc, hf⟩ := hw
      by_cases hc : 0 < pc.1.2 ∧ pc.1.2 < (cam.canvasHeight : ℤ) ∧
          0 < pc.1.1 ∧ pc.1.1 < (cam.canvasWidth : ℤ)
      · rw [if_pos hc] at hf
        obtain ⟨h1, h2, h3, h4⟩ := hc
        injection hf with hf
        subst hf
        simp [inBoundsWrite]
        exact ⟨h1, h2, h3, h4⟩
      · rw [if_neg hc] at hf
        exact absurd hf (by simp)
  | none =>
      simp only [Camera.render, List.mem_filterMap] at hw
      obtain ⟨xy, hxy, hf⟩ := hw
      by_cases hc : 0 < xy.2 ∧ xy.2 < (cam.canvasHeight : ℤ) ∧
          0 < xy.1 ∧ xy.1 < (cam.canvasWidth : ℤ)
      · rw [if_pos hc] at hf
        obtain ⟨h1, h2, h3, h4⟩ := hc
        injection hf with hf
        subst hf
        simp [inBoundsWrite]
        exact ⟨h1, h2, h3, h4⟩
      · rw [if_neg hc] at hf
        exact absurd hf (by simp)

/-- C10: Box.refresh issues no draw call for any camera and changes no
state (it is a pure function of its arguments returning the empty call
list), and Box construction discards its color argument: the constructed
Box keeps the Object3D base default color (0, 0, 0). -/
theorem box_refresh_noop_and_color_ignored (center size : ℚ × ℚ × ℚ)
    (color : Color) (cam : Camera ℚ) :
    Box.refresh (Box.new center size color) cam = [] ∧
    (Box.new center size color).color = (0, 0, 0) :=
  ⟨rfl, rfl⟩

/-- A scene object as it lives on the Python heap: its point data and its
bound flag (whether its back-reference _scene is set).  Only Point objects
are needed by the claims about Scene. -/
structure SceneObj where
  data : PointData
  bound : Bool
deriving DecidableEq

/-- The Scene state.  Python lists hold references to heap objects, and
Scene.flush mutates the referenced objects in place (unbind), so the
embedding carries an explicit store: store lists every object created so
far, an object identity is its index in the store, and the draft list
_drawing_objects and the active list _active_objects hold indices. -/
structure Scene where
  store : List SceneObj
  draft : List ℕ
  active : List ℕ
deriving DecidableEq

/-- Scene.draw_point_3d(x, y, z, color, thickness): construct the Point,
bind it to this scene (bound := true), and append it to the draft list
under the object lock. -/
def Scene.draw_point_3d (s : Scene) (p : PointData) : Scene :=
  { store := s.store ++ [⟨p, true⟩]
    draft := s.draft ++ [s.store.length]
    active := s.active }

/-- The unbind loop of Scene.flush and Scene.clear: set bound := false on
every stored object whose index (counted from base) is listed in ids. -/
def markUnbound (ids : List ℕ) : ℕ → List SceneObj → List SceneObj
  | _, [] => []
  | base, o :: rest =>
      (if base ∈ ids then { o with bound := false } else o) ::
        markUnbound ids (base + 1) rest

/-- Scene.flush: under the object lock, unbind every object currently in
the active list, replace the active list with the draft list, and empty
the draft list. -/
def Scene.flush (s : Scene) : Scene :=
  { store := markUnbound s.active 0 s.store
    draft := []
    active := s.draft }

/-- Scene.get_objects: return the active list under the object lock.  The
method only reads, so the state component of the result is the state
unchanged. -/
def Scene.get_objects (s : Scene) : List ℕ × Scene :=
  (s.active, s)

/-- The index range [start, start + len): the identities handed out to len
objects drawn in a row when the store already holds start objects. -/
def idRange : ℕ → ℕ → List ℕ
  | _, 0 => []
  | start, len + 1 => start :: idRange (start + 1) len

/-- Fallback object for out-of-range store lookups. -/
def defaultObj : SceneObj := ⟨⟨0, 0, 0, (0, 0, 0), 0⟩, false⟩

theorem markUnbound_length (ids : List ℕ) :
    ∀ (base : ℕ) (l : List SceneObj), (markUnbound ids base l).length = l.length := by
  intro base l
  induction l generalizing base with
  | nil => rfl
  | cons o rest ih => simp [markUnbound, ih]

theorem markUnbound_append (ids : List ℕ) (l1 : List SceneObj) :
    ∀ (base : ℕ) (l2 : List SceneObj),
      markUnbound ids base (l1 ++ l2) =
        markUnbound ids base l1 ++ markUnbound ids (base + l1.length) l2 := by
  induction l1 with
  | nil => intro base l2; simp [markUnbound]
  | cons o rest ih =>
      intro base l2
      simp only [List.cons_append, markUnbound, List.append_eq, List.length_cons, ih]
      rw [show base + (rest.length + 1) = base + 1 + rest.length by omega]

theorem markUnbound_of_lt (ids : List ℕ) :
    ∀ (base : ℕ) (l : List SceneObj), (∀ a ∈ ids, a < base) →
      markUnbound ids base l = l := by
  intro base l
  induction l generalizing base with
  | nil => intro _; rfl
  | cons o rest ih =>
      intro h
      have hb : base ∉ ids := fun hmem => absurd (h base hmem) (lt_irrefl base)
      simp [markUnbound, hb, ih (base + 1) (fun a ha => Nat.lt_succ_of_lt (h a ha))]

theorem markUnbound_getD (ids : List ℕ) :
    ∀ (l : List SceneObj) (base j : ℕ), j < l.length →
      (markUnbound ids base l).getD j defaultObj =
        (if base + j ∈ ids then
          { l.getD j defaultObj with bound := false }
        else l.getD j defaultObj) := by
  intro l
  induction l with
  | nil => intro base j h; simp at h
  | cons o rest ih =>
      intro base j h
      cases j with
      | zero => simp [markUnbound]
      | succ j =>
          have hj : j < rest.length := Nat.lt_of_succ_lt_succ h
          simp only [markUnbound, List.getD_cons_succ, ih base.succ j hj]
          rw [show base + 1 + j = base + (j + 1) by omega]

theorem getD_append_left {β : Type} (d : β) :
    ∀ (l1 l2 : List β) (i : ℕ), i < l1.length →
      (l1 ++ l2).getD i d = l1.getD i d := by
  intro l1
  induction l1 with
  | nil => intro l2 i h; simp at h
  | cons b rest ih =>
      intro l2 i h
      cases i with
      | zero => rfl
      | succ i => simpa using ih l2 i (Nat.lt_of_succ_lt_succ h)

theorem getD_append_self {β : Type} (d : β) :
    ∀ (l1 : List β) (b : β) (l2 : List β),
      (l1 ++ b :: l2).getD l1.length d = b := by
  intro l1
  induction l1 with
  | nil => intro b l2; rfl
  | cons c rest ih => intro b l2; simpa using ih b l2

theorem idRange_map_getD :
    ∀ (l2 l1 : List SceneObj) (n : ℕ), l1.length = n →
      (idRange n l2.length).map (fun i => (l1 ++ l2).getD i defaultObj) = l2 := by
  intro l2
  induction l2 with
  | nil => intro l1 n _; simp [idRange]
  | cons b rest ih =>
      intro l1 n hn
      simp only [List.length_cons, idRange, List.map_cons]
      have h1 : (l1 ++ b :: rest).getD n defaultObj = b := by
        rw [← hn]
        exact getD_append_self defaultObj l1 b rest
      have h2 : (idRange (n + 1) rest.length).map
          (fun i => (l1 ++ b :: rest).getD i defaultObj) = rest := by
        have he : l1 ++ b :: rest = (l1 ++ [b]) ++ rest := by simp
        simp only [he]
        exact ih (l1 ++ [b]) (n + 1) (by simp [hn])
      rw [h1, h2]

theorem draw_foldl (ps : List PointData) :
    ∀ s : Scene,
      ps.foldl Scene.draw_point_3d s =
        { store := s.store ++ ps.map (fun p => ⟨p, true⟩)
          draft := s.draft ++ idRange s.store.length ps.length
          active := s.active } := by
  induction ps with
  | nil => intro s; simp [idRange]
  | cons p ps ih =>
      intro s
      rw [List.foldl_cons, ih]
      simp only [Scene.draw_point_3d, List.length_append, List.length_cons,
        List.length_nil, List.map_cons, List.length_map, idRange]
      refine congrArg₂ (fun a b => Scene.mk a b s.active) ?_ ?_
      · simp
      · simp [idRange]

/-- C2: starting from a scene whose draft list is empty and whose active
list holds valid object indices, drawing N points and then flushing once
makes get_objects return exactly the N new point objects, in insertion
order (their indices are the next N store indices, and the stored objects
are the drawn points, still bound); the draft list is left empty; every
object that was in the active list before the flush has been unbound; and
a second get_objects call, made on the state returned by the first before
any further draw or flush, returns the identical sequence. -/
theorem scene_flush_atomicity (s : Scene) (ps : List PointData)
    (hdraft : s.draft = [])
    (hwf : ∀ i ∈ s.active, i < s.store.length) :
    (Scene.get_objects (Scene.flush (ps.foldl Scene.draw_point_3d s))).1 =
        idRange s.store.length ps.length ∧
    (idRange s.store.length ps.length).map
        (fun i =>
          (Scene.flush (ps.foldl Scene.draw_point_3d s)).store.getD i defaultObj) =
      ps.map (fun p => { data := p, bound := true }) ∧
    (Scene.flush (ps.foldl Scene.draw_point_3d s)).draft = [] ∧
    (∀ i ∈ s.active,
      ((Scene.flush (ps.foldl Scene.draw_point_3d s)).store.getD i
          defaultObj).bound = false) ∧
    (Scene.get_objects
        (Scene.get_objects (Scene.flush (ps.foldl Scene.draw_point_3d s))).2).1 =
      (Scene.get_objects (Scene.flush (ps.foldl Scene.draw_point_3d s))).1 := by
  rw [draw_foldl ps s]
  have hsplit : markUnbound s.active 0
        (s.store ++ ps.map (fun p => (⟨p, true⟩ : SceneObj))) =
      markUnbound s.active 0 s.store ++ ps.map (fun p => (⟨p, true⟩ : SceneObj)) := by
    rw [markUnbound_append]
    congr 1
    exact markUnbound_of_lt s.active (0 + s.store.length) _
      (fun a ha => by have := hwf a ha; omega)
  refine ⟨?_, ?_, ?_, ?_, ?_⟩
  · simp [Scene.flush, Scene.get_objects, hdraft]
  · simp only [Scene.flush, hsplit]
    have hlen : (markUnbound s.active 0 s.store).length = s.store.length :=
      markUnbound_length s.active 0 s.store
    have := idRange_map_getD (ps.map (fun p => (⟨p, true⟩ : SceneObj)))
      (markUnbound s.active 0 s.store) s.store.length hlen
    simpa using this
  · rfl
  · intro i hi
    have hilt : i < s.store.length := hwf i hi
    simp only [Scene.flush, hsplit]
    rw [getD_append_left defaultObj _ _ i (by rw [markUnbound_length]; exact hilt)]
    rw [markUnbound_getD s.active s.store 0 i hilt]
    simp [hi]
  · rfl

/-- Concrete scene for the C2 witness: one stored object, already active,
empty draft. -/
def witnessScene : Scene :=
  ⟨[⟨⟨1, 2, 3, (255, 0, 0), 1⟩, true⟩], [], [0]⟩

/-- Concrete points drawn in the C2 witness. -/
def witnessPoints : List PointData :=
  [⟨4, 5, 6, (0, 255, 0), 1⟩, ⟨7, 8, 9, (0, 0, 255), 2⟩]

/-- Witness for C2 at the concrete scene and point list. -/
theorem scene_flush_atomicity_witness :
    witnessScene.draft = [] ∧
    (∀ i ∈ witnessScene.active, i < witnessScene.store.length) ∧
    ((Scene.get_objects
          (Scene.flush (witnessPoints.foldl Scene.draw_point_3d witnessScene))).1 =
        idRange witnessScene.store.length witnessPoints.length ∧
      (idRange witnessScene.store.length witnessPoints.length).map
          (fun i =>
            (Scene.flush
                (witnessPoints.foldl Scene.draw_point_3d witnessScene)).store.getD i
              defaultObj) =
        witnessPoints.map (fun p => { data := p, bound := true }) ∧
      (Scene.flush (witnessPoints.foldl Scene.draw_point_3d witnessScene)).draft = [] ∧
      (∀ i ∈ witnessScene.active,
        ((Scene.flush
              (witnessPoints.foldl Scene.draw_point_3d witnessScene)).store.getD i
            defaultObj).bound = false) ∧
      (Scene.get_objects
          (Scene.get_objects
              (Scene.flush
                (witnessPoints.foldl Scene.draw_point_3d witnessScene))).2).1 =
        (Scene.get_objects
            (Scene.flush (witnessPoints.foldl Scene.draw_point_3d witnessScene))).1) :=
  ⟨rfl, by decide, scene_flush_atomicity witnessScene witnessPoints rfl (by decide)⟩

/-- The attribute names defined on a Frame object: the two instance
attributes set in Frame.__init__ and the two methods of the class. -/
def frameAttrNames : List String := ["_objects", "_obj_lock", "add", "clear"]

/-- The Frame state: its object list. -/
structure Frame (β : Type) where
  objects : List β

/-- Frame.add(obj): the body reads self.add_object; the embedding performs
the Python attribute lookup against the attributes Frame defines, and only
on success would the append run.  Frame defines no attribute add_object,
so the lookup raises AttributeError before any mutation and the object
list is untouched. -/
def Frame.add (fr : Frame β) (o : β) : Except String (Frame β) :=
  if frameAttrNames.contains "add_object" then
    Except.ok { fr with objects := fr.objects ++ [o] }
  else
    Except.error "AttributeError"

/-- Frame.clear(): empty the object list under the lock. -/
def Frame.clear (fr : Frame β) : Frame β :=
  { fr with objects := [] }

/-- C9: for every frame and every argument, Frame.add raises (it reads the
nonexistent attribute add_object, an AttributeError) and consequently
returns no updated frame: the object list is never extended through this
operation. -/
theorem frame_add_always_raises (β : Type) (fr : Frame β) (o : β) :
    Frame.add fr o = Except.error "AttributeError" := rfl

/-- Rotation about the x axis by angle t: cv2.Rodrigues((t, 0, 0)). -/
noncomputable def rodriguesX (t : ℝ) : Mat3 ℝ :=
  ⟨1, 0, 0,
   0, Real.cos t, -Real.sin t,
   0, Real.sin t, Real.cos t⟩

/-- Rotation about the y axis by angle t: cv2.Rodrigues((0, t, 0)). -/
noncomputable def rodriguesY (t : ℝ) : Mat3 ℝ :=
  ⟨Real.cos t, 0, Real.sin t,
   0, 1, 0,
   -Real.sin t, 0, Real.cos t⟩

/-- Rotation about the z axis by angle t: cv2.Rodrigues((0, 0, t)). -/
noncomputable def rodriguesZ (t : ℝ) : Mat3 ℝ :=
  ⟨Real.cos t, -Real.sin t, 0,
   Real.sin t, Real.cos t, 0,
   0, 0, 1⟩

/-- The matrix Camera.rotate installs for a given angle triple:
rz of -roll times (ry of -yaw times rx of -pitch), freshly computed from
the three angles alone. -/
noncomputable def rotationFromAngles (roll pitch yaw : ℝ) : Mat3 ℝ :=
  Mat3.mul (rodriguesZ (-roll)) (Mat3.mul (rodriguesY (-yaw)) (rodriguesX (-pitch)))

/-- Camera.rotate(roll, pitch, yaw): replace R with the product of the
three Rodrigues rotations of the negated angles. -/
noncomputable def Camera.rotate (cam : Camera ℝ) (roll pitch yaw : ℝ) : Camera ℝ :=
  { cam with R := rotationFromAngles roll pitch yaw }

/-- One assignment to a pose property setter. -/
inductive AngleOp where
  | setRoll : ℝ → AngleOp
  | setPitch : ℝ → AngleOp
  | setYaw : ℝ → AngleOp

/-- The roll, pitch and yaw property setters: store the one new angle,
then call rotate with the full current triple. -/
noncomputable def applyAngleOp (cam : Camera ℝ) : AngleOp → Camera ℝ
  | AngleOp.setRoll v =>
      let c := { cam with roll := v }
      Camera.rotate c c.roll c.pitch c.yaw
  | AngleOp.setPitch v =>
      let c := { cam with pitch := v }
      Camera.rotate c c.roll c.pitch c.yaw
  | AngleOp.setYaw v =>
      let c := { cam with yaw := v }
      Camera.rotate c c.roll c.pitch c.yaw

theorem applyAngleOp_R (cam : Camera ℝ) (op : AngleOp) :
    (applyAngleOp cam op).R =
      rotationFromAngles (applyAngleOp cam op).roll (applyAngleOp cam op).pitch
        (applyAngleOp cam op).yaw := by
  cases op <;> rfl

theorem angle_foldl_inv :
    ∀ (ops : List AngleOp) (cam : Camera ℝ),
      cam.R = rotationFromAngles cam.roll cam.pitch cam.yaw →
      (ops.foldl applyAngleOp cam).R =
        rotationFromAngles (ops.foldl applyAngleOp cam).roll
          (ops.foldl applyAngleOp cam).pitch (ops.foldl applyAngleOp cam).yaw := by
  intro ops
  induction ops with
  | nil => intro cam h; exact h
  | cons op rest ih =>
      intro cam _
      rw [List.foldl_cons]
      exact ih (applyAngleOp cam op) (applyAngleOp_R cam op)

theorem rotationFromAngles_zero :
    rotationFromAngles 0 0 0 = (⟨1, 0, 0, 0, 1, 0, 0, 0, 1⟩ : Mat3 ℝ) := by
  simp [rotationFromAngles, rodriguesX, rodriguesY, rodriguesZ, Mat3.mul]

/-- C7: starting from a freshly constructed camera, after ANY sequence of
assignments to the roll, pitch and yaw setters (in any order, with any
values), the stored rotation matrix R equals rz(-roll) . ry(-yaw) .
rx(-pitch) computed freshly from the current angle triple alone.  R is a
function of the final three angles only, never an incremental product with a
previous R, so the independent setters compose in any order. -/
theorem rotation_always_fresh_from_angles (width height : ℕ) (ops : List AngleOp) :
    (ops.foldl applyAngleOp (Camera.init width height)).R =
      rotationFromAngles (ops.foldl applyAngleOp (Camera.init width height)).roll
        (ops.foldl applyAngleOp (Camera.init width height)).pitch
        (ops.foldl applyAngleOp (Camera.init width height)).yaw := by
  apply angle_foldl_inv
  rw [show (Camera.init width height : Camera ℝ).roll = 0 from rfl,
    show (Camera.init width height : Camera ℝ).pitch = 0 from rfl,
    show (Camera.init width height : Camera ℝ).yaw = 0 from rfl,
    rotationFromAngles_zero]
  rfl

/-- One assignment to a lens property setter (focus or scale). -/
inductive LensOp (α : Type) where
  | setFocus : α → LensOp α
  | setScale : α → LensOp α

/-- The focus and scale property setters: store the new value, then write
f * s into intrinsic[0][0] and intrinsic[1][1] in place, leaving every
other intrinsic entry untouched. -/
def applyLensOp [LinearOrderedField α] (cam : Camera α) : LensOp α → Camera α
  | LensOp.setFocus v =>
      let c := { cam with f := v }
      { c with intrinsic :=
          { c.intrinsic with a00 := c.f * c.s, a11 := c.f * c.s } }
  | LensOp.setScale v =>
      let c := { cam with s := v }
      { c with intrinsic :=
          { c.intrinsic with a00 := c.f * c.s, a11 := c.f * c.s } }

/-- The intrinsic matrix shape the spec declares invariant:
[[f*s, 0, width/2], [0, f*s, height/2], [0, 0, 1]]. -/
def intrinsicForm [LinearOrderedField α] (fv sv : α) (width height : ℕ) : Mat3 α :=
  ⟨fv * sv, 0, (width : α) / 2,
   0, fv * sv, (height : α) / 2,
   0, 0, 1⟩

theorem lens_foldl_inv (width height : ℕ) :
    ∀ (ops : List (LensOp ℝ)) (cam : Camera ℝ),
      cam.intrinsic = intrinsicForm cam.f cam.s width height →
      (ops.foldl applyLensOp cam).intrinsic =
        intrinsicForm (ops.foldl applyLensOp cam).f
          (ops.foldl applyLensOp cam).s width height := by
  intro ops
  induction ops with
  | nil => intro cam h; exact h
  | cons op rest ih =>
      intro cam h
      rw [List.foldl_cons]
      apply ih
      cases op with
      | setFocus v => simp [applyLensOp, intrinsicForm, h]
      | setScale v => simp [applyLensOp, intrinsicForm, h]

/-- C8: starting from a freshly constructed camera, after ANY sequence of
assignments to the focus and scale setters with real values, the intrinsic
matrix equals [[f*s, 0, width/2], [0, f*s, height/2], [0, 0, 1]] for the
current f and s: entries (0,0) and (1,1) both equal f times s (setting
either f or s rewrites both), and the principal point and bottom row keep
their constructed values. -/
theorem intrinsic_always_f_times_s (width height : ℕ) (ops : List (LensOp ℝ)) :
    (ops.foldl applyLensOp (Camera.init width height)).intrinsic =
      intrinsicForm (ops.foldl applyLensOp (Camera.init width height)).f
        (ops.foldl applyLensOp (Camera.init width height)).s width height := by
  apply lens_foldl_inv
  rfl
